/-
Verification of the gostdlib/concurrency repository specification.

This file shallowly embeds the parts of the repository relevant to the
frozen claims:

* `prim.WaitGroup` (`Go`, `Wait`, `applyErr`)              — src/unnamed/part_010, part_013
* the `limited` goroutine pool (`New`, `Submit`)           — src/unnamed/part_022
* the pool `register` package (`Register`, `NewName`)      — src/unnamed/part_021
* `stagedpipe` stats (`setMin`, `setMax`, `calcExitStats`,
  `stats.toStats`)                                         — src/unnamed/part_003
* the internal queue (`Queue.Push/Pop/Close`)              — src/pipelines/stagedpipe/internal/queue/queue.go
* `stagedpipe` (`RequestGroup.Submit`, `pipeline.processReq`,
  `New` pre-processor installation)                        — src/pipelines/stagedpipe/stagedpipe.go

Pure functions are translated as Lean functions; the concurrent
pieces are modelled either as folds over the sequence of (atomically
serialized) operations, or — for the limited pool — as a labelled
small-step transition system over thread program counters.
-/
import Mathlib

namespace GostdlibConc

/-! Go errors

Go `error` values as the repository uses them: the `context.Canceled`
and `context.DeadlineExceeded` sentinels, opaque user errors (indexed
by a number), and the wrapper produced by `fmt.Errorf("%w", err)`. -/

inductive GoError : Type where
  | canceled : GoError
  | deadline : GoError
  | user : Nat → GoError
  | wrapped : GoError → GoError
  deriving DecidableEq, Repr

/-- A context error: `context.Canceled` or `context.DeadlineExceeded`
(spec: "Context errors — cancellation/deadline exceeded"). -/
def GoError.isCtx : GoError → Bool
  | .canceled => true
  | .deadline => true
  | _ => false

/-! Model of `applyErr` (src/unnamed/part_013, lines 95–112)

```go
func applyErr(ptr *atomic.Pointer[error], err error) {
    for {
        existing := ptr.Load()
        if existing == nil {
            if ptr.CompareAndSwap(nil, &err) { return }
        } else {
            if err == context.Canceled { return }
            err = fmt.Errorf("%w", err)
            if ptr.CompareAndSwap(existing, &err) { return }
        }
    }
}
```

Serialized (each `applyErr` call's CAS loop eventually wins), one call
transforms the stored error slot as follows. -/

def applyErr (stored : Option GoError) (err : GoError) : Option GoError :=
  match stored with
  | none => some err
  | some existing =>
      if err = .canceled then some existing
      else some (.wrapped err)

/-- The error slot after a sequence of `applyErr` calls, in arrival order,
starting from the empty slot (`errors atomic.Pointer[error]` zero value). -/
def recordErrors (errs : List GoError) : Option GoError :=
  errs.foldl applyErr none

/-! WaitGroup (src/unnamed/part_010)

State of a `prim.WaitGroup` that is observable through the claims:
the `count` and `total` atomic counters, the stored error slot, and
whether a `CancelOnErr` function is installed. -/

structure WaitGroup where
  count : Int
  total : Int
  errors : Option GoError
  cancelOnErr : Bool
  deriving DecidableEq, Repr

/-- Model of `WaitGroup.Wait` (part_010 lines 98–124, 138–144), after all workers
have been joined: `CancelOnErr` is invoked and cleared, the stored error
(if any) is returned, and the deferred `waitOTELEnd` resets `count`,
`total` and `errors` to their zero values.  Returns the error Wait
returns together with the post-`Wait` state. -/
def waitModel (w : WaitGroup) : Option GoError × WaitGroup :=
  let ret := w.errors
  (ret, { count := 0, total := 0, errors := none, cancelOnErr := false })

/-- Model of `WaitGroup.Running` (part_010 lines 93–95). -/
def runningModel (w : WaitGroup) : Int := w.count

/-- Amended description of the error slot (written for the amended claim
C2): the first arriving error occupies the slot; every later error equal
to `context.Canceled` is discarded; every other later error replaces the
slot with a single wrap of itself. `lastStored acc es` is the slot after
`acc` is stored and the errors `es` arrive. -/
def lastStored (acc : GoError) : List GoError → GoError
  | [] => acc
  | e :: es => if e = .canceled then lastStored acc es else lastStored (.wrapped e) es

/-- Amended C2: slot contents after the arrival sequence `errs`. -/
def storedErrorAmended : List GoError → Option GoError
  | [] => none
  | e :: es => some (lastStored e es)

/-- The first non-context error of an arrival sequence — what claim C2
says `Wait` returns. -/
def firstNonCtx (errs : List GoError) : Option GoError :=
  errs.find? (fun e => !e.isCtx)

/-! Model of `WaitGroup.Go` with a backing pool (part_010 lines 48–90)

```go
w.Pool.Submit(ctx, func(ctx context.Context) {
    if ctx.Err() != nil { return }
    if err := f(ctx); err != nil {
        if err := f(ctx); err != nil {
            applyErr(&w.errors, err)
            if w.CancelOnErr != nil { w.CancelOnErr() }
        }
    }
}, options...)
```

`f` is invoked with the same `ctx` each time; successive invocations may
return different errors (the function may have side effects), so the
model takes the result of the k-th invocation as `f k`.  The result is
`(number of invocations of f, error passed to applyErr (if any),
whether CancelOnErr was invoked)`. -/

def poolGoRun (ctxCanceled : Bool) (f : Nat → Option GoError) (cancelSet : Bool) :
    Nat × Option GoError × Bool :=
  if ctxCanceled then (0, none, false)
  else
    match f 0 with
    | none => (1, none, false)
    | some _ =>
        match f 1 with
        | none => (2, none, false)
        | some e => (2, some e, cancelSet)

/-! Queue back-off (src/pipelines/stagedpipe/internal/queue/queue.go, lines 60–76)

```go
var s time.Duration
for {
    a, ok := q.queue.pop()
    if ok { return a, ok }
    if q.closed.Load() { return a, ok }
    s += 100 * time.Nanosecond
    if s > 10*time.Millisecond { s = 10 * time.Millisecond }
    time.Sleep(s)
}
```

Durations in nanoseconds. `backoffStep` is one `s += 100; cap` update;
`sleepDur n` is the duration slept before the n-th retry (n ≥ 1). -/

def backoffStep (s : Nat) : Nat :=
  let s' := s + 100
  if s' > 10000000 then 10000000 else s'

def sleepDur : Nat → Nat
  | 0 => 0
  | n + 1 => backoffStep (sleepDur n)

/-! Pipeline stats (src/unnamed/part_003)

The atomic counters of `stagedpipe.stats` and the pure transcriptions of
`setMin`, `setMax` (lines 82–105), `calcExitStats` and `toStats`.
`time.Duration` is an `int64`; overflow is immaterial to the claims, so
durations are `Int`. Go's `/` on `int64` truncates toward zero
(`Int.tdiv`). -/

structure PipeStats where
  running : Int
  completed : Int
  minV : Int
  maxV : Int
  avgTotal : Int
  deriving DecidableEq, Repr

/-- Model of `newStats()`: all atomics start at their zero value. -/
def newStatsModel : PipeStats :=
  { running := 0, completed := 0, minV := 0, maxV := 0, avgTotal := 0 }

/-- Model of `setMin(current, v)`: store `v` only if `v < current` (serialized, the
CAS loop always lands). -/
def setMinModel (current v : Int) : Int :=
  if v ≥ current then current else v

/-- Model of `setMax(current, v)`: store `v` only if `v > current`. -/
def setMaxModel (current v : Int) : Int :=
  if v ≤ current then current else v

/-- Model of `pipeline.calcExitStats` (stagedpipe.go lines 782–791): a request
leaving the pipeline with running time `runTime`. -/
def calcExitStats (s : PipeStats) (runTime : Int) : PipeStats :=
  { s with
    running := s.running - 1
    completed := s.completed + 1
    minV := setMinModel s.minV runTime
    maxV := setMaxModel s.maxV runTime
    avgTotal := s.avgTotal + runTime }

/-- A run in which the requests with running times `ds` were processed to
completion: each one increments `running` on ingest (processReq line 740)
and then passes `calcExitStats`. -/
def processedStats (ds : List Int) : PipeStats :=
  ds.foldl (fun s d => calcExitStats { s with running := s.running + 1 } d) newStatsModel

/-- The observable part of a `Stats` snapshot. -/
structure StatsOut where
  running : Int
  completed : Int
  min : Int
  avg : Int
  max : Int
  deriving DecidableEq, Repr

/-- Model of `stats.toStats` (part_003 lines 40–52): `Avg` is the cumulative total
tdiv the completed count, 0 when nothing completed. -/
def toStatsModel (s : PipeStats) : StatsOut :=
  { running := s.running
    completed := s.completed
    min := s.minV
    max := s.maxV
    avg := if s.completed ≠ 0 then s.avgTotal.tdiv s.completed else 0 }

/-! The internal queue (src/pipelines/stagedpipe/internal/queue/queue.go)

The single consumer sees the lock-free linked list as a FIFO list:
`simple.push` appends at the tail, `simple.pop` removes the head.
A `Queue` additionally has the `closed` flag and — when built with
`size > 0` — the `limit` semaphore channel, modelled by its capacity
and the number of tokens it currently holds (`cap = 0` is the `nil`
channel of an unbounded queue). -/

structure GQueue (A : Type) where
  items : List A
  closed : Bool
  cap : Nat
  held : Nat
  deriving Repr

/-- Model of `queue.New(size)`: `size ≤ 0` gives an unbounded queue (`nil` limit
channel, modelled as `cap = 0`). -/
def queueNew (A : Type) (size : Int) : GQueue A :=
  { items := [], closed := false, cap := size.toNat, held := 0 }

/-- Model of `Queue.Close`: just sets the flag; nothing is flushed. -/
def queueClose (q : GQueue A) : GQueue A := { q with closed := true }

/-- The deferred token release in `Queue.Pop` (lines 48–58): a
non-blocking receive from the limit channel — one token is removed
when present, and the `default` branch makes it a no-op otherwise. -/
def queueRelease (q : GQueue A) : GQueue A :=
  if q.cap = 0 then q else { q with held := q.held - 1 }

/-- Model of `Queue.Push` (lines 30–35): a bounded push first sends one token into
the limit channel; `none` means the push blocks (channel at capacity). -/
def queuePush (q : GQueue A) (a : A) : Option (GQueue A) :=
  if q.cap ≠ 0 ∧ q.held ≥ q.cap then none
  else some { q with
    items := q.items ++ [a]
    held := if q.cap = 0 then q.held else q.held + 1 }

/-- Model of `Queue.Pop` (lines 47–77): return the head when the list is
non-empty; return `(zero, false)` when empty and closed; otherwise the
loop sleeps and retries — `none` marks that (possibly unbounded)
blocking, which the post-`Close` claims never reach. -/
def queuePop (q : GQueue A) : Option (Option A × GQueue A) :=
  match q.items with
  | a :: rest => some (some a, queueRelease { q with items := rest })
  | [] => if q.closed then some (none, queueRelease q) else none

/-- Runs `n` successive `Pop` calls; `none` if any of them blocks. -/
def queuePopN : Nat → GQueue A → Option (List (Option A) × GQueue A)
  | 0, q => some ([], q)
  | n + 1, q =>
      match queuePop q with
      | none => none
      | some (r, q') => (queuePopN n q').map (fun p => (r :: p.1, p.2))

/-! The pool registry (src/unnamed/part_021) and pool construction

`numOrHyphen = regexp.MustCompile([0-9-\s])`. -/

def hasNumOrHyphen (s : String) : Bool :=
  s.data.any (fun c => c.isDigit || c = '-' || c.isWhitespace)

/-- Model of `register.ValidateBaseName` (part_021 lines 49–54): `true` = valid. -/
def validateBaseName (s : String) : Bool := !hasNumOrHyphen s

/-- Model of `register.Register` (part_021 lines 22–37) against a registry of
taken names: an empty name registers nothing and succeeds; a taken name
fails; otherwise the name is added. `none` = "name already taken". -/
def registerModel (registry : List String) (name : String) : Option (List String) :=
  if name = "" then some registry
  else if name ∈ registry then none
  else some (name :: registry)

/-- Model of `strings.SplitAfter(s, sep)` for a one-character separator: split
after each occurrence of the separator, keeping it. -/
def splitAfterAux (sep : Char) : List Char → List Char → List (List Char)
  | [], acc => [acc.reverse]
  | c :: cs, acc =>
      if c = sep then (c :: acc).reverse :: splitAfterAux sep cs []
      else splitAfterAux sep cs (c :: acc)

def splitAfter (s : String) (sep : Char) : List String :=
  (splitAfterAux sep s.data []).map List.asString

/-- Model of `strconv.Atoi`: an optional sign followed by at least one decimal
digit. -/
def parseDigits : List Char → Nat → Option Nat
  | [], acc => some acc
  | c :: cs, acc =>
      if c.isDigit then parseDigits cs (acc * 10 + (c.toNat - '0'.toNat)) else none

def atoiModel (s : String) : Option Int :=
  match s.data with
  | [] => none
  | '-' :: cs => if cs = [] then none else (parseDigits cs 0).map (fun n => -(n : Int))
  | '+' :: cs => if cs = [] then none else (parseDigits cs 0).map (fun n => (n : Int))
  | cs => (parseDigits cs 0).map (fun n => (n : Int))

/-- Model of `register.NewName` (part_021 lines 58–71).  `none` models the two Go
panics: indexing `sp[1]` out of range, and `strconv.Atoi` failing
(`panic("register is broken, ...")`). -/
def newNameModel (name : String) : Option String :=
  if !hasNumOrHyphen name then some (name ++ "-1")
  else
    let sp := splitAfter name '-'
    match sp.get? 1 with
    | none => none
    | some s1 =>
        match atoiModel s1 with
        | none => none
        | some n => some ((sp.headD "") ++ "-" ++ toString (n + 1))

/-- The registration loop of `limited.New` (part_022 lines 55–61) and
`pooled.New` (part_023 lines 181–187):

```go
for {
    if err := register.Register(p); err != nil {
        p.name = register.NewName(name)   // NB: always the original name
        continue
    }
    break
}
```

`fuel` bounds the number of iterations we unroll; `none` means the loop
has not terminated within `fuel` iterations (or a `NewName` panic).
`current` is `p.name`. -/
def newRegisterLoop (registry : List String) (base : String) :
    Nat → String → Option String
  | 0, _ => none
  | fuel + 1, current =>
      match registerModel registry current with
      | some _ => some current
      | none =>
          match newNameModel base with
          | none => none
          | some next => newRegisterLoop registry base fuel next

/-! Model of `RequestGroup.Submit` (stagedpipe.go lines 523–568)

One `Submit` call, as far as item numbering is concerned:
- a `nil` context is rejected before the counter is touched;
- otherwise `req.itemNum = r.itemNum.Add(1) - 1` consumes a number;
- then `select { case <-req.Ctx.Done(): return err; case r.p.in <- req }`
  delivers the request or returns the context error.  When the context
  is canceled both branches can be ready and Go chooses
  nondeterministically; `chooseDone` records that choice (it can only be
  taken when the context is canceled). -/

structure SubmitCall where
  ctxNil : Bool
  ctxCanceled : Bool
  chooseDone : Bool
  deriving DecidableEq, Repr

inductive SubmitResult : Type where
  /-- rejected by the `req.Ctx == nil` pre-flight check; no number used -/
  | rejectedNil : SubmitResult
  /-- numbered, but the select returned `req.Ctx.Err()` -/
  | rejectedCtx : Nat → SubmitResult
  /-- numbered and delivered to the runtime's input channel -/
  | accepted : Nat → SubmitResult
  deriving DecidableEq, Repr

/-- One `Submit` against the group's sequence counter. -/
def submitStep (counter : Nat) (c : SubmitCall) : Nat × SubmitResult :=
  if c.ctxNil then (counter, .rejectedNil)
  else
    let n := counter
    if c.ctxCanceled && c.chooseDone then (counter + 1, .rejectedCtx n)
    else (counter + 1, .accepted n)

/-- A sequence of `Submit` calls on one `RequestGroup`, counter starting
at `counter` (`0` for a fresh group). -/
def submitRun (counter : Nat) : List SubmitCall → List SubmitResult
  | [] => []
  | c :: cs =>
      let (counter', r) := submitStep counter c
      r :: submitRun counter' cs

/-- The item numbers consumed by `fetchAdd` (all calls that passed the
nil-context check), in call order. -/
def assignedNums (rs : List SubmitResult) : List Nat :=
  rs.filterMap (fun r =>
    match r with
    | .rejectedNil => none
    | .rejectedCtx n => some n
    | .accepted n => some n)

/-- The item numbers of the requests `Submit` accepted, in call order. -/
def acceptedNums (rs : List SubmitResult) : List Nat :=
  rs.filterMap (fun r =>
    match r with
    | .accepted n => some n
    | _ => none)

/-! The stage executor (`pipeline.processReq`, stagedpipe.go lines 728–779)

A `Request` as the executor sees it.  Stages are identified by their
stable name (`methodName` in the source); `Next` holds the selected
stage. `seen = none` models `r.seenStages == nil` (DAG mode off). -/

inductive PipeErr : Type where
  /-- `r.Err = r.Ctx.Err()` — the context error -/
  | ctx : PipeErr
  /-- `Error{Type: cyclicErr, Msg: trace}` -/
  | cyclic : String → PipeErr
  /-- an error set by a stage or a user pre-processor -/
  | stage : Nat → PipeErr
  deriving DecidableEq, Repr

structure PReq (T : Type) where
  ctxCanceled : Bool
  data : T
  err : Option PipeErr
  next : Option String
  seen : Option (List String)

/-- Model of `seenStages.callTrace` (stagedpipe.go lines 157–166): the stages seen
so far joined by `" -> "`. -/
def callTrace (ss : List String) : String :=
  String.intercalate " -> " ss

/-- The built-in `resetNext` pre-processor (stagedpipe.go lines 383–386). -/
def resetNextPP (r : PReq T) : PReq T := { r with next := none }

/-- Model of `New` (stagedpipe.go lines 416–427) installs `resetNext` as the first
pre-processor; the `PreProcessors` option appends the user's after it. -/
def newPreProcessors (user : List (PReq T → PReq T)) : List (PReq T → PReq T) :=
  resetNextPP :: user

/-- The pre-processor loop: `r = pp(r); if r.Err != nil return r`. The
Bool is `true` when the loop terminated the request. -/
def applyPPs : List (PReq T → PReq T) → PReq T → PReq T × Bool
  | [], r => (r, false)
  | pp :: pps, r =>
      let r' := pp r
      if r'.err.isSome then (r', true) else applyPPs pps r'

/-- Outcome of one iteration of the `processReq` loop: the request is
terminal (pushed to the output channel), or continues at another stage. -/
inductive IterOut (T : Type) : Type where
  | terminal : PReq T → IterOut T
  | step : String → PReq T → IterOut T

/-- The tail of one loop iteration after the context and cycle checks:
pre-processors, stage invocation, `stage = r.Next`. `sm name` is the
stage registered under `name`. -/
def processRest (pps : List (PReq T → PReq T)) (sm : String → PReq T → PReq T)
    (stage : String) (r : PReq T) : IterOut T :=
  let (r1, bad) := applyPPs pps r
  if bad then .terminal r1
  else
    let r2 := sm stage r1
    if r2.err.isSome then .terminal r2
    else
      match r2.next with
      | none => .terminal r2
      | some s' => .step s' r2

/-- One iteration of the `processReq` loop, transcribed from the source:
context check, `seenStages.seen` check (which appends the current stage
when not yet seen), then `processRest`. -/
def processIter (pps : List (PReq T → PReq T)) (sm : String → PReq T → PReq T)
    (stage : String) (r : PReq T) : IterOut T :=
  if r.ctxCanceled then .terminal { r with err := some .ctx }
  else
    match r.seen with
    | none => processRest pps sm stage r
    | some ss =>
        if stage ∈ ss then .terminal { r with err := some (.cyclic (callTrace ss)) }
        else processRest pps sm stage { r with seen := some (ss ++ [stage]) }

/-- The full `processReq` loop with fuel (the source loop need not
terminate when DAG mode is off); `none` = fuel exhausted. -/
def processLoop (pps : List (PReq T → PReq T)) (sm : String → PReq T → PReq T) :
    Nat → String → PReq T → Option (PReq T)
  | 0, _, _ => none
  | fuel + 1, stage, r =>
      match processIter pps sm stage r with
      | .terminal r' => some r'
      | .step s' r' => processLoop pps sm fuel s' r'

/-- Modelled from the claim's words (C8), for comparison with
`processIter`: terminate with the context error if canceled; in DAG
mode terminate with a cyclic error carrying the arrow-joined trace on a
repeated stage; apply the built-in reset-next (nulling `Next`) first and
then the user pre-processors in order, terminating if any sets `Err`;
invoke the stage, terminating if it sets `Err`; continue with `Next`,
terminating when it is null. -/
def specRest (userPPs : List (PReq T → PReq T)) (sm : String → PReq T → PReq T)
    (stage : String) (r : PReq T) : IterOut T :=
  let r0 : PReq T := { r with next := none }
  if r0.err.isSome then .terminal r0
  else
    let (r1, bad) := applyPPs userPPs r0
    if bad then .terminal r1
    else
      let r2 := sm stage r1
      if r2.err.isSome then .terminal r2
      else
        match r2.next with
        | none => .terminal r2
        | some s' => .step s' r2

/-- One iteration as described by claim C8. -/
def specIter (userPPs : List (PReq T → PReq T)) (sm : String → PReq T → PReq T)
    (stage : String) (r : PReq T) : IterOut T :=
  if r.ctxCanceled then .terminal { r with err := some .ctx }
  else
    match r.seen with
    | none => specRest userPPs sm stage r
    | some ss =>
        if stage ∈ ss then .terminal { r with err := some (.cyclic (callTrace ss)) }
        else specRest userPPs sm stage { r with seen := some (ss ++ [stage]) }

/-- The claim-side loop. -/
def specLoop (userPPs : List (PReq T → PReq T)) (sm : String → PReq T → PReq T) :
    Nat → String → PReq T → Option (PReq T)
  | 0, _, _ => none
  | fuel + 1, stage, r =>
      match specIter userPPs sm stage r with
      | .terminal r' => some r'
      | .step s' r' => specLoop userPPs sm fuel s' r'

/-! The limited pool as a transition system (src/unnamed/part_022)

`Submit` (blocking path, lines 147–165) performs, in order:
1. `p.queue <- struct{}{}`   — acquire one semaphore slot (blocks while
   the channel holds `size` tokens);
2. `p.running.Add(1)` and `go func(){ ...; runner(ctx) }()` — spawn the
   worker;
3. return — at which point the deferred `func(){ <-p.queue }()` releases
   the slot.
The spawned worker runs the job and then does `p.running.Add(-1)`.

A configuration tracks the semaphore channel occupancy, the `running`
counter, the program counter of every `Submit` call, and the number of
workers that have not yet finished. -/

inductive SubPC : Type where
  /-- about to acquire a slot -/
  | ready : SubPC
  /-- slot acquired, about to increment `running` and spawn -/
  | acquired : SubPC
  /-- worker spawned, about to return (deferred release pending) -/
  | spawned : SubPC
  /-- `Submit` returned; its slot is released -/
  | done : SubPC
  deriving DecidableEq, Repr

structure LimConfig : Type where
  sem : Nat
  run : Nat
  subs : List SubPC
  jobs : Nat
  deriving DecidableEq, Repr

/-- Interleaving semantics of blocking `Submit`s on a size-`size`
limited pool, one labelled step per atomic action of the source. -/
inductive LimStep (size : Nat) : LimConfig → LimConfig → Prop
  | acquire (c : LimConfig) (i : Nat) :
      c.subs[i]? = some .ready → c.sem < size →
      LimStep size c { c with sem := c.sem + 1, subs := c.subs.set i .acquired }
  | spawn (c : LimConfig) (i : Nat) :
      c.subs[i]? = some .acquired →
      LimStep size c
        { c with run := c.run + 1, jobs := c.jobs + 1, subs := c.subs.set i .spawned }
  | subReturn (c : LimConfig) (i : Nat) :
      c.subs[i]? = some .spawned →
      LimStep size c { c with sem := c.sem - 1, subs := c.subs.set i .done }
  | finish (c : LimConfig) :
      0 < c.jobs →
      LimStep size c { c with run := c.run - 1, jobs := c.jobs - 1 }

/-- A pool fresh from `New(name, size)` with `n` pending `Submit`
callers: empty semaphore channel, `running = 0`, no workers. -/
def limInit (n : Nat) : LimConfig :=
  { sem := 0, run := 0, subs := List.replicate n .ready, jobs := 0 }

/-! Theorems settling the claims. -/

/-- Helper for C2: the slot is never vacated once occupied, and evolves
by discarding later `context.Canceled`s and replacing on any other later
error. -/
theorem foldl_applyErr_some (es : List GoError) :
    ∀ acc, es.foldl applyErr (some acc) = some (lastStored acc es) := by
  induction es with
  | nil => intro acc; rfl
  | cons e es ih =>
      intro acc
      by_cases h : e = GoError.canceled
      · simp [List.foldl, applyErr, lastStored, h, ih]
      · simp [List.foldl, applyErr, lastStored, h, ih]

/-- C10: After `WaitGroup.Wait` returns, the internal state is reset by
the deferred `waitOTELEnd`: the running count, the total-launched count
and the stored error are cleared, so `Running()` reports 0 and a second
`Wait` with no intervening `Go` returns nil — even when the completed
`Wait` itself returned the stored (possibly non-nil) error to its
caller. -/
theorem wait_resets_state (w : WaitGroup) :
    (waitModel w).1 = w.errors
    ∧ runningModel (waitModel w).2 = 0
    ∧ (waitModel w).2.total = 0
    ∧ (waitModel w).2.errors = none
    ∧ (waitModel (waitModel w).2).1 = none :=
  ⟨rfl, rfl, rfl, rfl, rfl⟩

/-- C9: With a backing pool, a function whose first invocation returns a
non-nil error is invoked a second time with the same context; the number
of invocations is 2, the error recorded via `applyErr` is exactly the
second invocation's result (so nothing is recorded when the second
invocation succeeds), and `CancelOnErr` fires iff a second error exists
and a cancel function is installed. -/
theorem poolGo_double_invocation (f : Nat → Option GoError) (cancelSet : Bool)
    (e0 : GoError) (h : f 0 = some e0) :
    poolGoRun false f cancelSet = (2, f 1, cancelSet && (f 1).isSome) := by
  cases h1 : f 1 <;> simp [poolGoRun, h, h1]

/-- Witness for C9 at a concrete function that errors on every call. -/
theorem poolGo_double_invocation_witness :
    poolGoRun false (fun n => some (.user n)) true = (2, some (.user 1), true) :=
  poolGo_double_invocation (fun n => some (.user n)) true (.user 0) rfl

/-- Counterexample to C2 as stated: after two non-context errors
`user 1` then `user 2`, the slot holds a wrap of the *second* error —
not the first non-context error, and not a chain onto the stored one. -/
theorem applyErr_replaces_not_chains :
    recordErrors [.user 1, .user 2] = some (.wrapped (.user 2))
    ∧ firstNonCtx [.user 1, .user 2] = some (.user 1)
    ∧ recordErrors [.user 1, .user 2] ≠ firstNonCtx [.user 1, .user 2] := by
  refine ⟨rfl, rfl, by decide⟩

/-- C2 (amended): `Wait` returns the folded error slot: the first error
occupies the slot; each later error equal to `context.Canceled` is
discarded; each other later error replaces the slot with a single wrap
of itself (dropping what was stored). -/
theorem wait_error_slot_characterization (errs : List GoError) :
    recordErrors errs = storedErrorAmended errs := by
  cases errs with
  | nil => rfl
  | cons e es =>
      show List.foldl applyErr (applyErr none e) es = _
      rw [show applyErr none e = some e from rfl, foldl_applyErr_some]
      rfl

/-- Counterexample to C4 as stated: the successive sleeps are 100, 200,
300 ns — an arithmetic progression, not a geometric one (a geometric
sequence would satisfy s₂·s₂ = s₁·s₃, but 200·200 ≠ 100·300). -/
theorem backoff_not_exponential :
    sleepDur 1 = 100 ∧ sleepDur 2 = 200 ∧ sleepDur 3 = 300
    ∧ sleepDur 2 * sleepDur 2 ≠ sleepDur 1 * sleepDur 3 := by decide

/-- C4 (amended): the sleep before the n-th retry grows linearly by
100 ns per empty poll, capped at 10 ms: `sleepDur n = min (100·n) 10ms`
(in particular it starts at 100 ns and is capped at 10 ms). -/
theorem backoff_linear_capped (n : Nat) : sleepDur n = min (100 * n) 10000000 := by
  induction n with
  | zero => rfl
  | succ n ih =>
      rw [sleepDur, ih]
      simp only [backoffStep]
      split <;> omega

/-- C3: evaluation at the failing input. After a single completed
request with running time 5 ns, `Stats()` reports `Min = 0`, not the
smallest observed per-request runtime 5: `stats.min` starts at the
atomic zero value and `setMin` never raises it. `Max` and `Avg` are as
the claim says. -/
theorem stats_min_stays_zero :
    toStatsModel (processedStats [5]) =
      { running := 0, completed := 1, min := 0, avg := 5, max := 5 }
    ∧ (toStatsModel (processedStats [5])).min ≠ 5 := by decide

/-- Helper for C5: `queueRelease` touches only the token count. -/
theorem queueRelease_items (q : GQueue A) :
    (queueRelease q).items = q.items ∧ (queueRelease q).closed = q.closed
    ∧ (queueRelease q).cap = q.cap := by
  unfold queueRelease; split <;> exact ⟨rfl, rfl, rfl⟩

/-- Helper for C5: draining a closed queue, by induction on its
contents (any capacity, any token count). -/
theorem queuePopN_closed (A : Type) (l : List A) :
    ∀ cap held, ∃ q' : GQueue A,
      queuePopN (l.length + 1) ⟨l, true, cap, held⟩ =
        some (l.map some ++ [none], q') ∧ q'.items = [] := by
  induction l with
  | nil =>
      intro cap held
      refine ⟨queueRelease ⟨[], true, cap, held⟩, ?_, ?_⟩
      · rfl
      · exact (queueRelease_items _).1
  | cons a l ih =>
      intro cap held
      have hpop : queuePop (⟨a :: l, true, cap, held⟩ : GQueue A) =
          some (some a, queueRelease ⟨l, true, cap, held⟩) := rfl
      by_cases hc : cap = 0
      · obtain ⟨q', hq', hitems⟩ := ih cap held
        refine ⟨q', ?_, hitems⟩
        have hrel : queueRelease (⟨l, true, cap, held⟩ : GQueue A) =
            ⟨l, true, cap, held⟩ := by simp [queueRelease, hc]
        show (match queuePop (⟨a :: l, true, cap, held⟩ : GQueue A) with
          | none => none
          | some (r, q') => (queuePopN (l.length + 1) q').map (fun p => (r :: p.1, p.2))) =
          some ((a :: l).map some ++ [none], q')
        rw [hpop, hrel]
        show (queuePopN (l.length + 1) (⟨l, true, cap, held⟩ : GQueue A)).map
            (fun p => (some a :: p.1, p.2)) = some ((a :: l).map some ++ [none], q')
        rw [hq']
        rfl
      · obtain ⟨q', hq', hitems⟩ := ih cap (held - 1)
        refine ⟨q', ?_, hitems⟩
        have hrel : queueRelease (⟨l, true, cap, held⟩ : GQueue A) =
            ⟨l, true, cap, held - 1⟩ := by simp [queueRelease, hc]
        show (match queuePop (⟨a :: l, true, cap, held⟩ : GQueue A) with
          | none => none
          | some (r, q') => (queuePopN (l.length + 1) q').map (fun p => (r :: p.1, p.2))) =
          some ((a :: l).map some ++ [none], q')
        rw [hpop, hrel]
        show (queuePopN (l.length + 1) (⟨l, true, cap, held - 1⟩ : GQueue A)).map
            (fun p => (some a :: p.1, p.2)) = some ((a :: l).map some ++ [none], q')
        rw [hq']
        rfl

/-- C5: `Close` discards nothing. After `Close`, successive `Pop` calls
return every item still in the queue, in FIFO order with `ok = true`,
and once the queue is empty the next `Pop` returns `(zero, false)`
instead of blocking — for bounded (`cap ≠ 0`) and unbounded queues
alike. -/
theorem queue_close_no_discard (A : Type) (q : GQueue A) (h : q.closed = true) :
    ∃ q' : GQueue A,
      queuePopN (q.items.length + 1) q = some (q.items.map some ++ [none], q')
      ∧ q'.items = [] := by
  obtain ⟨items, closed, cap, held⟩ := q
  cases h
  exact queuePopN_closed A items cap held

/-- Witness for C5: a capacity-2 bounded queue holding 1..5 at `Close`
yields exactly `some 1, …, some 5` and then `(zero, false)`. -/
theorem queue_close_no_discard_witness :
    ∃ q' : GQueue Nat,
      queuePopN 6 ⟨[1, 2, 3, 4, 5], true, 2, 2⟩ =
        some ([some 1, some 2, some 3, some 4, some 5, none], q')
      ∧ q'.items = [] :=
  queue_close_no_discard Nat ⟨[1, 2, 3, 4, 5], true, 2, 2⟩ rfl

/-- Helper for C6: once the pool's candidate name is `"pool-1"` and the
registry holds both `"pool"` and `"pool-1"`, every further iteration of
the registration loop recomputes `NewName("pool") = "pool-1"` and fails
again, for any amount of fuel. -/
theorem newRegisterLoop_stuck (fuel : Nat) :
    newRegisterLoop ["pool", "pool-1"] "pool" fuel "pool-1" = none := by
  induction fuel with
  | zero => rfl
  | succ n ih =>
      have h1 : registerModel ["pool", "pool-1"] "pool-1" = none := by decide
      have h2 : newNameModel "pool" = some "pool-1" := by decide
      show (match registerModel ["pool", "pool-1"] "pool-1" with
        | some _ => some "pool-1"
        | none =>
            match newNameModel "pool" with
            | none => none
            | some next => newRegisterLoop ["pool", "pool-1"] "pool" n next) = none
      rw [h1, h2]
      exact ih

/-- C6: evaluation at the failing input. With the registry already
holding `"pool"` and `"pool-1"`, the registration loop of `New` never
terminates — `p.name = register.NewName(name)` always recomputes the
suffix from the original base name, so `-2` is never tried.  Moreover
`NewName` itself, applied to its own output `"pool-1"`, produces
`"pool--2"` (the `SplitAfter` piece keeps the hyphen), not `"pool-2"`. -/
theorem register_retry_never_advances :
    (∀ fuel, newRegisterLoop ["pool", "pool-1"] "pool" fuel "pool" = none)
    ∧ newNameModel "pool" = some "pool-1"
    ∧ newNameModel "pool-1" = some "pool--2"
    ∧ validateBaseName "pool" = true := by
  refine ⟨?_, by decide, by decide, by decide⟩
  intro fuel
  cases fuel with
  | zero => rfl
  | succ n =>
      have h1 : registerModel ["pool", "pool-1"] "pool" = none := by decide
      have h2 : newNameModel "pool" = some "pool-1" := by decide
      show (match registerModel ["pool", "pool-1"] "pool" with
        | some _ => some "pool"
        | none =>
            match newNameModel "pool" with
            | none => none
            | some next => newRegisterLoop ["pool", "pool-1"] "pool" n next) = none
      rw [h1, h2]
      exact newRegisterLoop_stuck n

/-- Helper for C7: from any counter value, the numbers consumed by
`fetchAdd` across a sequence of `Submit` calls form a contiguous
ascending run starting at that counter. -/
theorem assignedNums_range (calls : List SubmitCall) :
    ∀ c, ∃ k, assignedNums (submitRun c calls) = List.range' c k := by
  induction calls with
  | nil => intro c; exact ⟨0, rfl⟩
  | cons call cs ih =>
      intro c
      by_cases h1 : call.ctxNil
      · obtain ⟨k, hk⟩ := ih c
        refine ⟨k, ?_⟩
        simpa [submitRun, submitStep, h1, assignedNums] using hk
      · by_cases h2 : call.ctxCanceled && call.chooseDone
        · obtain ⟨k, hk⟩ := ih (c + 1)
          refine ⟨k + 1, ?_⟩
          simp only [submitRun, submitStep, h1, h2, assignedNums, List.filterMap_cons,
            if_false, if_true, Bool.false_eq_true, ite_false, ite_true]
          show c :: assignedNums (submitRun (c + 1) cs) = c :: List.range' (c + 1) k
          exact congrArg _ hk
        · obtain ⟨k, hk⟩ := ih (c + 1)
          refine ⟨k + 1, ?_⟩
          simp only [submitRun, submitStep, h1, h2, assignedNums, List.filterMap_cons,
            if_false, if_true, Bool.false_eq_true, ite_false, ite_true]
          show c :: assignedNums (submitRun (c + 1) cs) = c :: List.range' (c + 1) k
          exact congrArg _ hk

/-- Helper for C7: the accepted numbers are a sublist of the consumed
numbers (every accepted request carries the number it consumed). -/
theorem acceptedNums_sublist (calls : List SubmitCall) :
    ∀ c, (acceptedNums (submitRun c calls)).Sublist (assignedNums (submitRun c calls)) := by
  induction calls with
  | nil => intro c; exact List.Sublist.refl _
  | cons call cs ih =>
      intro c
      by_cases h1 : call.ctxNil
      · simpa [submitRun, submitStep, h1, assignedNums, acceptedNums] using ih c
      · by_cases h2 : call.ctxCanceled && call.chooseDone
        · simp only [submitRun, submitStep, h1, h2, assignedNums, acceptedNums,
            List.filterMap_cons, Bool.false_eq_true, ite_false, ite_true]
          exact ((ih (c + 1)).cons c)
        · simp only [submitRun, submitStep, h1, h2, assignedNums, acceptedNums,
            List.filterMap_cons, Bool.false_eq_true, ite_false, ite_true]
          exact ((ih (c + 1)).cons₂ c)

/-- Counterexample to C7 as stated: a first `Submit` whose (non-nil)
context is already canceled consumes item number 0 and is rejected with
the context error; the next accepted request gets item number 1, so the
accepted item numbers do not start at 0. -/
theorem accepted_itemnums_not_from_zero :
    acceptedNums (submitRun 0 [⟨false, true, true⟩, ⟨false, false, false⟩]) = [1]
    ∧ acceptedNums (submitRun 0 [⟨false, true, true⟩, ⟨false, false, false⟩]) ≠
        List.range
          (acceptedNums (submitRun 0 [⟨false, true, true⟩, ⟨false, false, false⟩])).length := by
  decide

/-- C7 (amended): every `Submit` that passes the nil-context check
consumes `sequence_counter.fetchAdd(1) - 1`, so the consumed numbers are
exactly `0, 1, 2, …`; the accepted requests' numbers are a sublist of
them, hence unique and strictly increasing within the group — but they
may skip numbers consumed by Submits that failed with a canceled
context. -/
theorem itemnum_assignment (calls : List SubmitCall) :
    (∃ k, assignedNums (submitRun 0 calls) = List.range k)
    ∧ (acceptedNums (submitRun 0 calls)).Sublist (assignedNums (submitRun 0 calls))
    ∧ (acceptedNums (submitRun 0 calls)).Pairwise (· < ·) := by
  obtain ⟨k, hk⟩ := assignedNums_range calls 0
  refine ⟨⟨k, by rw [hk, List.range_eq_range']⟩, acceptedNums_sublist calls 0, ?_⟩
  exact ((hk ▸ List.pairwise_lt_range' 0 k).sublist (acceptedNums_sublist calls 0))

/-- Helper for C8: folding the built-in reset-next pre-processor out of
the pre-processor loop. -/
theorem processRest_eq_specRest (user : List (PReq T → PReq T))
    (sm : String → PReq T → PReq T) (stage : String) (r : PReq T) :
    processRest (newPreProcessors user) sm stage r = specRest user sm stage r := by
  simp only [processRest, specRest, newPreProcessors, applyPPs, resetNextPP]
  by_cases h : (({ r with next := none } : PReq T).err).isSome <;> simp [h]

/-- Helper for C8: one loop iteration of the source equals one iteration
as the claim describes it. -/
theorem processIter_eq_specIter (user : List (PReq T → PReq T))
    (sm : String → PReq T → PReq T) (stage : String) (r : PReq T) :
    processIter (newPreProcessors user) sm stage r = specIter user sm stage r := by
  unfold processIter specIter
  cases hc : r.ctxCanceled
  · cases hs : r.seen with
    | none => simpa using processRest_eq_specRest user sm stage r
    | some ss =>
        by_cases hm : stage ∈ ss
        · simp [hm]
        · simpa [hm] using processRest_eq_specRest user sm stage
            { ctxCanceled := false, data := r.data, err := r.err, next := r.next,
              seen := some (ss ++ [stage]) }
  · simp

/-- Helper for C8: fuelled loops coincide. -/
theorem processLoop_eq_specLoop (user : List (PReq T → PReq T))
    (sm : String → PReq T → PReq T) :
    ∀ fuel stage r,
      processLoop (newPreProcessors user) sm fuel stage r = specLoop user sm fuel stage r := by
  intro fuel
  induction fuel with
  | zero => intro stage r; rfl
  | succ n ih =>
      intro stage r
      show (match processIter (newPreProcessors user) sm stage r with
        | .terminal r' => some r'
        | .step s' r' => processLoop (newPreProcessors user) sm n s' r') =
        (match specIter user sm stage r with
        | .terminal r' => some r'
        | .step s' r' => specLoop user sm n s' r')
      rw [processIter_eq_specIter]
      cases specIter user sm stage r with
      | terminal r' => rfl
      | step s' r' => exact ih s' r'

/-- C8: the stage executor performs, at every iteration, exactly the
order the claim states — context check, DAG duplicate check (cyclic
error with the arrow-joined trace), pre-processors with the built-in
reset-next first, stage invocation, then `Next` — both per iteration
and over the whole (fuelled) loop. -/
theorem processReq_iteration_order (T : Type) (user : List (PReq T → PReq T))
    (sm : String → PReq T → PReq T) :
    (∀ stage r, processIter (newPreProcessors user) sm stage r = specIter user sm stage r)
    ∧ ∀ fuel stage r,
        processLoop (newPreProcessors user) sm fuel stage r = specLoop user sm fuel stage r :=
  ⟨fun stage r => processIter_eq_specIter user sm stage r,
   fun fuel stage r => processLoop_eq_specLoop user sm fuel stage r⟩

/-- C1: evaluation at the failing input. On a size-1 limited pool, two
plain (blocking) `Submit` calls can reach `running = 2`: the deferred
`<-p.queue` runs when `Submit` returns — right after spawning the worker
— so the slot is free again while the first job still runs, and the
second `Submit` acquires it and spawns a second concurrent job. -/
theorem limited_pool_budget_violated :
    ∃ c : LimConfig, Relation.ReflTransGen (LimStep 1) (limInit 2) c ∧ c.run = 2 := by
  refine ⟨⟨1, 2, [.done, .spawned], 2⟩, ?_, rfl⟩
  have s1 : LimStep 1 (limInit 2) ⟨1, 0, [.acquired, .ready], 0⟩ :=
    LimStep.acquire _ 0 rfl (by decide)
  have s2 : LimStep 1 ⟨1, 0, [.acquired, .ready], 0⟩ ⟨1, 1, [.spawned, .ready], 1⟩ :=
    LimStep.spawn _ 0 rfl
  have s3 : LimStep 1 ⟨1, 1, [.spawned, .ready], 1⟩ ⟨0, 1, [.done, .ready], 1⟩ :=
    LimStep.subReturn _ 0 rfl
  have s4 : LimStep 1 ⟨0, 1, [.done, .ready], 1⟩ ⟨1, 1, [.done, .acquired], 1⟩ :=
    LimStep.acquire _ 1 rfl (by decide)
  have s5 : LimStep 1 ⟨1, 1, [.done, .acquired], 1⟩ ⟨1, 2, [.done, .spawned], 2⟩ :=
    LimStep.spawn _ 1 rfl
  exact .head s1 (.head s2 (.head s3 (.head s4 (.head s5 .refl))))

end GostdlibConc
